import Mathlib

/-!
Verification of the signatory repository's provider / key-store layer.

The Rust sources are shallowly embedded:
* `src/src/keystore/fs.rs` — the filesystem-backed keystore (`FsKeyStore`),
  over an explicit filesystem state (`FileSystem`);
* `src/providers/signatory-ring/src/ed25519.rs` — the ring-backed Ed25519
  signer construction paths;
* `src/src/providers/yubihsm.rs` — the YubiHSM session/signer provider, with
  the hardware module modelled as the narrow collaborator interface the spec
  describes (`create_session`, `get_public_key`, `sign`), and the
  mutex-guarded session additionally modelled as a small transition system
  to settle the wire-level exclusivity property.

Machine integers (`u32` mode bits, `u16` key ids) are embedded as `Nat`;
the only bit-level operation the code performs is `mode & 0o777`, embedded
as `Nat.land`.
-/

namespace Signatory

/-- Paths are lists of components; the keystore only ever joins a root
directory with a single extra component derived from the label. -/
abbrev Path := List String

/-- I/O error kinds relevant to the embedded operations (`std::io::Error`
is opaque in the source; only its occurrence matters). -/
inductive IoErrorKind where
  | notFound
  | alreadyExists
  | other
deriving DecidableEq, Repr

/-- The keystore crate's error enum, from `src/src/error.rs`:
`Io(std::io::Error)`, `NotADirectory`, `Permissions`, `Pkcs8(pkcs8::Error)`. -/
inductive Error where
  | Io (kind : IoErrorKind)
  | NotADirectory
  | Permissions
  | Pkcs8
deriving DecidableEq, Repr

/-- File contents: either a PEM-armored PKCS#8 private-key document (the
pkcs8 crate's PEM codec is an out-of-scope black box; `pem` tags bytes it
wrote, and only such bytes parse back), or unparseable raw bytes. -/
inductive FileData where
  | pem (doc : List Nat)
  | raw (bytes : List Nat)
deriving DecidableEq, Repr

/-- Filesystem state: directories (with their `st_mode` permission bits)
and regular files, as association lists keyed by path. -/
structure FileSystem where
  dirs : List (Path × Nat)
  files : List (Path × FileData)
deriving DecidableEq, Repr

/-- Read a file's contents, `none` when absent. -/
def FileSystem.readFile (fs : FileSystem) (p : Path) : Option FileData :=
  fs.files.lookup p

/-- Write (create or overwrite) the file at `p`. -/
def FileSystem.writeFile (fs : FileSystem) (p : Path) (v : FileData) : FileSystem :=
  { fs with files := (p, v) :: fs.files.filter (fun e => !(e.1 == p)) }

/-- Remove the file at `p` (the caller checks existence, as
`fs::remove_file` reports `NotFound` itself — see `FsKeyStore.delete`). -/
def FileSystem.removeFile (fs : FileSystem) (p : Path) : FileSystem :=
  { fs with files := fs.files.filter (fun e => !(e.1 == p)) }

/-- Mode a freshly created directory gets before `create` resets it
(`0o777` minus a typical umask; its value is irrelevant — `create`
overwrites it). -/
def defaultDirMode : Nat := 0o755

/-- `Path::canonicalize`: resolves the path, failing when it does not
exist; embedded as the identity on existing paths. -/
def canonicalize (p : Path) (fs : FileSystem) : Except Error Path :=
  if (fs.dirs.lookup p).isSome ∨ (fs.files.lookup p).isSome then .ok p
  else .error (.Io .notFound)

/-- `Path::metadata`: `(is_dir, st_mode)` of an existing path. -/
def metadata (p : Path) (fs : FileSystem) : Except Error (Bool × Nat) :=
  match fs.dirs.lookup p with
  | some m => .ok (true, m)
  | none =>
    match fs.files.lookup p with
    | some _ => .ok (false, 0o644)
    | none => .error (.Io .notFound)

/-- One step of `fs::create_dir_all`: ensure `p` exists as a directory. -/
def ensureDir (fs : FileSystem) (p : Path) : Except Error FileSystem :=
  match fs.dirs.lookup p with
  | some _ => .ok fs
  | none =>
    match fs.files.lookup p with
    | some _ => .error (.Io .alreadyExists)
    | none => .ok { fs with dirs := (p, defaultDirMode) :: fs.dirs }

/-- `fs::create_dir_all` worker: create every prefix of `base ++ rest`
extending `base`, in order. -/
def createDirsPrefixes (base : Path) (rest : List String) (fs : FileSystem) :
    Except Error FileSystem :=
  match rest with
  | [] => .ok fs
  | c :: cs =>
    match ensureDir fs (base ++ [c]) with
    | .error e => .error e
    | .ok fs1 => createDirsPrefixes (base ++ [c]) cs fs1

/-- `fs::create_dir_all(p)`: create `p` and all its parents as needed. -/
def createDirAll (p : Path) (fs : FileSystem) : Except Error FileSystem :=
  createDirsPrefixes [] p fs

/-- Replace the recorded mode of the directory at `p`. -/
def FileSystem.setDirMode (fs : FileSystem) (p : Path) (mode : Nat) : FileSystem :=
  { fs with dirs := (p, mode) :: fs.dirs.filter (fun e => !(e.1 == p)) }

/-- `fs::set_permissions(p, Permissions::from_mode(mode))` on a directory. -/
def setPermissions (p : Path) (mode : Nat) (fs : FileSystem) :
    Except Error FileSystem :=
  match fs.dirs.lookup p with
  | some _ => .ok (fs.setDirMode p mode)
  | none => .error (.Io .notFound)

/-- Required filesystem mode for keystore directories (`REQUIRED_DIR_MODE`
in `fs.rs`): `0o700`. -/
def REQUIRED_DIR_MODE : Nat := 0o700

/-- Filesystem-backed keystore (`FsKeyStore { path: PathBuf }`). -/
structure FsKeyStore where
  path : Path
deriving DecidableEq, Repr

/-- `FsKeyStore::open` from `fs.rs`: canonicalize, stat, fail
`NotADirectory` unless a directory, fail `Permissions` unless
`mode & 0o777 == REQUIRED_DIR_MODE`. -/
def FsKeyStore.openStore (dir_path : Path) (fs : FileSystem) :
    Except Error FsKeyStore :=
  match canonicalize dir_path fs with
  | .error e => .error e
  | .ok path =>
    match metadata path fs with
    | .error e => .error e
    | .ok st =>
      if !st.1 then .error .NotADirectory
      else if Nat.land st.2 0o777 ≠ REQUIRED_DIR_MODE then .error .Permissions
      else .ok ⟨path⟩

/-- `FsKeyStore::create` from `fs.rs`: `create_dir_all`, then
`set_permissions(dir, 0o700)`, then delegate to `open`. The new
filesystem state is returned alongside the store. -/
def FsKeyStore.create (dir_path : Path) (fs : FileSystem) :
    Except Error (FsKeyStore × FileSystem) :=
  match createDirAll dir_path fs with
  | .error e => .error e
  | .ok fs1 =>
    match setPermissions dir_path REQUIRED_DIR_MODE fs1 with
    | .error e => .error e
    | .ok fs2 =>
      match FsKeyStore.openStore dir_path fs2 with
      | .error e => .error e
      | .ok st => .ok (st, fs2)

/-- Rust `Path::file_stem` restricted to a single normal component: the
portion before the final dot, except that a name whose only dot is the
leading character is its own stem. -/
def fileStem (name : List Char) : List Char :=
  if '.' ∈ name.drop 1 then
    (((name.reverse).dropWhile (fun c => !(c == '.'))).drop 1).reverse
  else name

/-- `FsKeyStore::key_path`: `self.path.join(label)` followed by
`set_extension("pem")`, for labels forming a single normal path component
(nonempty, no separator, not a dot-only name): `set_extension` replaces
the label's own extension, if any, with `pem`. -/
def FsKeyStore.key_path (self : FsKeyStore) (label : String) : Path :=
  self.path ++ [String.mk (fileStem label.toList ++ ['.', 'p', 'e', 'm'])]

/-- `FsKeyStore::store`: `der.write_pem_file(self.key_path(label))`. -/
def FsKeyStore.store (self : FsKeyStore) (label : String) (der : List Nat)
    (fs : FileSystem) : Except Error FileSystem :=
  .ok (fs.writeFile (self.key_path label) (.pem der))

/-- `FsKeyStore::load`: `PrivateKeyDocument::read_pem_file(self.key_path(label))`,
every failure of which (missing file or unparseable contents) surfaces
through `From<pkcs8::Error>` as `Error::Pkcs8`. -/
def FsKeyStore.load (self : FsKeyStore) (label : String) (fs : FileSystem) :
    Except Error (List Nat) :=
  match fs.readFile (self.key_path label) with
  | some (.pem d) => .ok d
  | some (.raw _) => .error .Pkcs8
  | none => .error .Pkcs8

/-- `FsKeyStore::delete`: `fs::remove_file(self.key_path(label))`, which
fails with a `NotFound` I/O error when the file is absent. -/
def FsKeyStore.delete (self : FsKeyStore) (label : String) (fs : FileSystem) :
    Except Error FileSystem :=
  match fs.readFile (self.key_path label) with
  | some _ => .ok (fs.removeFile (self.key_path label))
  | none => .error (.Io .notFound)

/-- Every nonempty prefix of `dir` exists as a directory in `fs` (a real
filesystem holding `dir` satisfies this automatically). -/
def AllPrefixesDirs (fs : FileSystem) (dir : Path) : Prop :=
  ∀ i, i < dir.length → ((fs.dirs.lookup (dir.take (i + 1))).isSome = true)

/-- Failures reported by the hardware-module collaborator (the yubihsm
crate boundary): transport-, authentication-, or device-reported. -/
inductive HsmError where
  | transport
  | authentication
  | device
deriving DecidableEq, Repr

/-- The provider-side error type of the older signatory crate layout used
by the ring and YubiHSM providers (`error::ErrorKind`): `KeyInvalid`,
`SignatureInvalid`, `InvalidKey`, and `ProviderError` wrapping the
underlying collaborator failure as its cause. -/
inductive PError where
  | keyInvalid
  | signatureInvalid
  | invalidKey
  | providerError (cause : HsmError)
deriving DecidableEq, Repr

/-- Outcome of an operation that can also panic (`unwrap` on a library
result or on a poisoned mutex): a panic is distinct from every typed
error. -/
inductive POut (α : Type) where
  | panicked
  | ok (a : α)
  | err (e : PError)
deriving DecidableEq, Repr

/-- Result of a construction path that either panics or yields a value. -/
inductive PanicOr (α : Type) where
  | panicked
  | value (a : α)
deriving DecidableEq, Repr

namespace Ed25519

/-- Ed25519 public key value type (`ed25519::PublicKey`), a byte wrapper. -/
structure PublicKey where
  bytes : List Nat
deriving DecidableEq, Repr

/-- `PublicKey::new`. -/
def PublicKey.new (bytes : List Nat) : PublicKey := ⟨bytes⟩

/-- Ed25519 signature value type (`ed25519::Signature`), a byte wrapper. -/
structure Signature where
  bytes : List Nat
deriving DecidableEq, Repr

/-- `Signature::new`. -/
def Signature.new (bytes : List Nat) : Signature := ⟨bytes⟩

/-- Modelled from the spec: `Seed` ("raw private scalar/seed material
(32 bytes for Ed25519)", validated construction from raw bytes only); the
`Seed` type itself lives outside the included sources. -/
structure Seed where
  bytes : List Nat
  len32 : bytes.length = 32
deriving Repr

/-- Modelled from the spec: `Seed` construction from raw bytes rejects
wrong-length input with `KeyInvalid` ("Construction from a seed ... fails
with `KeyInvalid` if the underlying primitive library rejects the bytes
(wrong length, ...)"). -/
def Seed.from_bytes (b : List Nat) : Except PError Seed :=
  if h : b.length = 32 then .ok ⟨b, h⟩ else .error .keyInvalid

/-- The primitive library's keypair (`ring::signature::Ed25519KeyPair`),
opaque apart from the seed it was built from. -/
structure Ed25519KeyPair where
  seedBytes : List Nat
deriving DecidableEq, Repr

/-- `Ed25519KeyPair::from_seed_unchecked`: the out-of-scope primitive
library accepts exactly 32-byte seeds here ("`from_seed` performs
unchecked-but-length-validated construction from 32 raw bytes"). -/
def Ed25519KeyPair.from_seed_unchecked (b : List Nat) :
    Except Unit Ed25519KeyPair :=
  if b.length = 32 then .ok ⟨b⟩ else .error ()

/-- Ed25519 signature provider for ring (`Ed25519Signer(Ed25519KeyPair)`). -/
structure Ed25519Signer where
  keypair : Ed25519KeyPair
deriving DecidableEq, Repr

/-- `FromSeed::from_seed` for the ring signer: calls
`Ed25519KeyPair::from_seed_unchecked` on the seed's bytes and `unwrap`s
the result (a library rejection would be a panic, not a typed error). -/
def Ed25519Signer.from_seed (seed : Seed) : PanicOr Ed25519Signer :=
  match Ed25519KeyPair.from_seed_unchecked seed.bytes with
  | .ok kp => .value ⟨kp⟩
  | .error _ => .panicked

/-- `FromPKCS8::from_pkcs8` for the ring signer: delegates decoding to
the primitive library (passed as the collaborator `ringDecode`) and maps
any rejection to `KeyInvalid`. -/
def Ed25519Signer.from_pkcs8 (ringDecode : List Nat → Except Unit Ed25519KeyPair)
    (pkcs8_bytes : List Nat) : Except PError Ed25519Signer :=
  match ringDecode pkcs8_bytes with
  | .ok kp => .ok ⟨kp⟩
  | .error _ => .error .keyInvalid

end Ed25519

/-- Identifiers for keys in the YubiHSM (`type KeyId = u16`). -/
abbrev KeyId := Nat

/-- Asymmetric-key algorithm tags stored with keys in the hardware module
(the yubihsm crate's `Algorithm`, restricted to representative tags). -/
inductive Algorithm where
  | EC_ED25519
  | EC_P256
  | RSA_2048
deriving DecidableEq, Repr

/-- A wire-level request issued to the hardware module. -/
inductive Request where
  | getPubkey (id : KeyId)
  | signDataEddsa (id : KeyId) (msg : List Nat)
deriving DecidableEq, Repr

/-- The hardware-module transport boundary, per the spec's external
interface: `create_session`, `get_public_key` (returning the stored
algorithm tag and key bytes), and the raw `sign` request. The transport
and encryption protocol behind it is opaque. -/
structure HsmApi where
  createSession : Except HsmError Unit
  getPubkey : KeyId → Except HsmError (Algorithm × List Nat)
  signDataEddsa : KeyId → List Nat → Except HsmError (List Nat)

/-- End-to-end encrypted session with the YubiHSM
(`YubiHSMSession(Arc<Mutex<Session>>)`); `poisoned` records whether a
previous lock holder panicked while holding the mutex. -/
structure YubiHSMSession where
  api : HsmApi
  poisoned : Bool

/-- `YubiHSMSession::new`: establishes the session via
`Session::create_from_password`, mapping any failure to
`ProviderError` carrying the cause. -/
def YubiHSMSession.new (api : HsmApi) : Except PError YubiHSMSession :=
  match api.createSession with
  | .ok _ => .ok ⟨api, false⟩
  | .error e => .error (.providerError e)

/-- Ed25519 signature provider for yubihsm-client
(`YubiHSMSigner { session, signing_key_id }`); the shared session is
passed explicitly to each operation. -/
structure YubiHSMSigner where
  signing_key_id : KeyId
deriving DecidableEq, Repr

/-- `YubiHSMSigner::public_key`: `self.session.lock().unwrap()` (panics
when the mutex is poisoned), then one `get_pubkey` request; a collaborator
failure maps to `ProviderError`, and a stored algorithm tag other than
`EC_ED25519` is rejected with `InvalidKey`. Returns the outcome together
with the list of wire requests issued. -/
def YubiHSMSigner.public_key (sess : YubiHSMSession) (self : YubiHSMSigner) :
    POut Ed25519.PublicKey × List Request :=
  if sess.poisoned then (.panicked, [])
  else
    match sess.api.getPubkey self.signing_key_id with
    | .error e => (.err (.providerError e), [.getPubkey self.signing_key_id])
    | .ok (alg, data) =>
      if alg ≠ Algorithm.EC_ED25519 then
        (.err .invalidKey, [.getPubkey self.signing_key_id])
      else (.ok (Ed25519.PublicKey.new data), [.getPubkey self.signing_key_id])

/-- `YubiHSMSigner::sign`: `self.session.lock().unwrap()` (panics when the
mutex is poisoned), then one `sign_data_eddsa` request; a collaborator
failure maps to `ProviderError`. Returns the outcome together with the
list of wire requests issued. -/
def YubiHSMSigner.sign (sess : YubiHSMSession) (self : YubiHSMSigner)
    (msg : List Nat) : POut Ed25519.Signature × List Request :=
  if sess.poisoned then (.panicked, [])
  else
    match sess.api.signDataEddsa self.signing_key_id msg with
    | .error e =>
      (.err (.providerError e), [.signDataEddsa self.signing_key_id msg])
    | .ok sigBytes =>
      (.ok (Ed25519.Signature.new sigBytes),
        [.signDataEddsa self.signing_key_id msg])

/-- `YubiHSMSigner::new`: builds the signer bound to `signing_key_id` and
immediately probes `public_key` once ("Ensure the signing_key_id slot
contains a valid Ed25519 public key"); its failure is the constructor's
failure. Returns the outcome with the wire requests issued. -/
def YubiHSMSigner.new (sess : YubiHSMSession) (signing_key_id : KeyId) :
    POut YubiHSMSigner × List Request :=
  let signer : YubiHSMSigner := ⟨signing_key_id⟩
  match YubiHSMSigner.public_key sess signer with
  | (.ok _, t) => (.ok signer, t)
  | (.err e, t) => (.err e, t)
  | (.panicked, t) => (.panicked, t)

/-- A wire-level event observed by the hardware-module collaborator:
thread `t`'s single remote request, or the return of its response. -/
inductive WireEvent where
  | req (t : Nat)
  | resp (t : Nat)
deriving DecidableEq, Repr

/-- State of any number of threads concurrently running the body of
`YubiHSMSigner::sign` (or `public_key`) against one shared
`Arc<Mutex<Session>>`: who holds the lock, each thread's program counter
(0 = before `lock()`, 1 = lock held, 2 = request issued, 3 = response
returned, 4 = guard dropped), and the wire trace the collaborator saw. -/
structure SessState where
  lockOwner : Option Nat
  pc : Nat → Nat
  trace : List WireEvent

/-- Initial state: lock free, every thread about to call `lock()`. -/
def SessState.init : SessState := ⟨none, fun _ => 0, []⟩

/-- Small-step semantics of the signing operations' bodies: a thread
acquires the free lock, issues its single remote request while holding
it, receives the response while still holding it, and only then releases
it (the `MutexGuard` drops at the end of the function body). -/
inductive SignStep : SessState → SessState → Prop
  | acquire (s : SessState) (t : Nat) :
      s.lockOwner = none → s.pc t = 0 →
      SignStep s ⟨some t, fun u => if u = t then 1 else s.pc u, s.trace⟩
  | request (s : SessState) (t : Nat) :
      s.lockOwner = some t → s.pc t = 1 →
      SignStep s
        ⟨some t, fun u => if u = t then 2 else s.pc u, s.trace ++ [.req t]⟩
  | response (s : SessState) (t : Nat) :
      s.lockOwner = some t → s.pc t = 2 →
      SignStep s
        ⟨some t, fun u => if u = t then 3 else s.pc u, s.trace ++ [.resp t]⟩
  | release (s : SessState) (t : Nat) :
      s.lockOwner = some t → s.pc t = 3 →
      SignStep s ⟨none, fun u => if u = t then 4 else s.pc u, s.trace⟩

/-- States reachable from `SessState.init` by interleaving any number of
threads. -/
inductive ReachableSess : SessState → Prop
  | start : ReachableSess SessState.init
  | step {s s' : SessState} :
      ReachableSess s → SignStep s s' → ReachableSess s'

/-- Wire traces made of completed request/response blocks: request N+1
appears only after request N's response. -/
inductive SerialTrace : List WireEvent → Prop
  | nil : SerialTrace []
  | block (l : List WireEvent) (t : Nat) :
      SerialTrace l → SerialTrace (l ++ [.req t, .resp t])

/-- A trace with no interleaving at the wire level: completed blocks,
possibly followed by one request whose response is still pending. -/
def NonInterleaved (l : List WireEvent) : Prop :=
  SerialTrace l ∨ ∃ l' t, SerialTrace l' ∧ l = l' ++ [.req t]

/-- Inductive invariant tying the lock discipline to the trace shape. -/
def SessInv (s : SessState) : Prop :=
  (s.lockOwner = none →
    (∀ t, s.pc t = 0 ∨ s.pc t = 4) ∧ SerialTrace s.trace) ∧
  (∀ t, s.lockOwner = some t →
    (∀ u, u ≠ t → s.pc u = 0 ∨ s.pc u = 4) ∧
    ((s.pc t = 1 ∧ SerialTrace s.trace) ∨
     (s.pc t = 2 ∧ ∃ l, SerialTrace l ∧ s.trace = l ++ [.req t]) ∨
     (s.pc t = 3 ∧ SerialTrace s.trace)))

lemma sessInv_init : SessInv SessState.init := by
  constructor
  · intro _
    exact ⟨fun t => Or.inl rfl, SerialTrace.nil⟩
  · intro t h
    simp [SessState.init] at h

lemma sessInv_step {s s' : SessState} (hinv : SessInv s)
    (hstep : SignStep s s') : SessInv s' := by
  obtain ⟨hfree, hheld⟩ := hinv
  cases hstep with
  | acquire t hown hpc =>
    obtain ⟨hall, htr⟩ := hfree hown
    constructor
    · intro h; simp at h
    · intro t' h
      simp at h
      subst h
      refine ⟨fun u hu => ?_, Or.inl ⟨by simp, htr⟩⟩
      simp only [if_neg hu]
      exact hall u
  | request t hown hpc =>
    obtain ⟨hothers, hdisj⟩ := hheld t hown
    have htr : SerialTrace s.trace := by
      rcases hdisj with ⟨_, h⟩ | ⟨h2, _⟩ | ⟨h3, _⟩
      · exact h
      · omega
      · omega
    constructor
    · intro h; simp at h
    · intro t' h
      simp at h
      subst h
      refine ⟨fun u hu => ?_, Or.inr (Or.inl ⟨by simp, s.trace, htr, rfl⟩)⟩
      simp only [if_neg hu]
      exact hothers u hu
  | response t hown hpc =>
    obtain ⟨hothers, hdisj⟩ := hheld t hown
    obtain ⟨l, hl, htr⟩ : ∃ l, SerialTrace l ∧ s.trace = l ++ [WireEvent.req t] := by
      rcases hdisj with ⟨h1, _⟩ | ⟨_, h⟩ | ⟨h3, _⟩
      · omega
      · exact h
      · omega
    constructor
    · intro h; simp at h
    · intro t' h
      simp at h
      subst h
      refine ⟨fun u hu => ?_, Or.inr (Or.inr ⟨by simp, ?_⟩)⟩
      · simp only [if_neg hu]
        exact hothers u hu
      · have : s.trace ++ [WireEvent.resp t] = l ++ [WireEvent.req t, WireEvent.resp t] := by
          rw [htr, List.append_assoc]
          rfl
        simp only [this]
        exact SerialTrace.block l t hl
  | release t hown hpc =>
    obtain ⟨hothers, hdisj⟩ := hheld t hown
    have htr : SerialTrace s.trace := by
      rcases hdisj with ⟨h1, _⟩ | ⟨h2, _⟩ | ⟨_, h⟩
      · omega
      · omega
      · exact h
    constructor
    · intro _
      refine ⟨fun u => ?_, htr⟩
      by_cases hu : u = t
      · subst hu; simp
      · simp only [if_neg hu]
        exact hothers u hu
    · intro t' h; simp at h

lemma reachable_sessInv {s : SessState} (h : ReachableSess s) : SessInv s := by
  induction h with
  | start => exact sessInv_init
  | step _ hstep ih => exact sessInv_step ih hstep

section Lemmas

lemma lookup_cons_self {β : Type} (p : Path) (v : β) (l : List (Path × β)) :
    List.lookup p ((p, v) :: l) = some v := by
  simp [List.lookup]

lemma lookup_filter_ne_none {β : Type} (p : Path) (l : List (Path × β)) :
    List.lookup p (l.filter (fun e => !(e.1 == p))) = none := by
  induction l with
  | nil => rfl
  | cons e es ih =>
    obtain ⟨k, v⟩ := e
    by_cases h : (k == p) = true
    · rw [List.filter_cons]
      simp only [h, Bool.not_true, if_neg, Bool.false_eq_true, not_false_eq_true]
      exact ih
    · have h1 : (k == p) = false := by simpa using h
      have h2 : (p == k) = false :=
        beq_eq_false_iff_ne.mpr fun hh => beq_eq_false_iff_ne.mp h1 hh.symm
      rw [List.filter_cons]
      simp only [h1, Bool.not_false, if_pos]
      rw [List.lookup_cons, h2]
      exact ih

/-- `FsKeyStore::open` fails with `Permissions` on any existing directory
whose permission bits (mode masked with `0o777`) differ from `0o700`. -/
lemma openStore_perm_mismatch (fs : FileSystem) (dir : Path) (m : Nat)
    (hdir : fs.dirs.lookup dir = some m)
    (hmode : Nat.land m 0o777 ≠ REQUIRED_DIR_MODE) :
    FsKeyStore.openStore dir fs = .error Error.Permissions := by
  have hc : canonicalize dir fs = .ok dir := by
    unfold canonicalize
    rw [if_pos (Or.inl (by simp [hdir]))]
  have hm : metadata dir fs = .ok (true, m) := by
    unfold metadata
    rw [hdir]
  simp only [FsKeyStore.openStore, hc, hm]
  simp [hmode]

/-- `fs::create_dir_all` leaves the filesystem untouched when every
prefix it would create already exists as a directory. -/
lemma createDirsPrefixes_noop (rest : List String) (base : Path)
    (fs : FileSystem)
    (h : ∀ i, i < rest.length →
      ((fs.dirs.lookup (base ++ rest.take (i + 1))).isSome = true)) :
    createDirsPrefixes base rest fs = .ok fs := by
  induction rest generalizing base with
  | nil => rfl
  | cons c cs ih =>
    have hc : (fs.dirs.lookup (base ++ [c])).isSome = true := by
      simpa using h 0 (by simp)
    obtain ⟨v, hv⟩ := Option.isSome_iff_exists.mp hc
    unfold createDirsPrefixes ensureDir
    rw [hv]
    apply ih
    intro i hi
    have hnext := h (i + 1) (by simpa using Nat.succ_lt_succ hi)
    simpa [List.take_succ_cons, List.append_assoc] using hnext

/-- `FsKeyStore::create` on an existing directory (all of whose parents
exist): `create_dir_all` is a no-op, `set_permissions` forces the mode to
`0o700`, and the delegated `open` then succeeds. -/
lemma create_resets_existing_dir (fs : FileSystem) (dir : Path) (m : Nat)
    (hdir : fs.dirs.lookup dir = some m)
    (hpre : AllPrefixesDirs fs dir) :
    FsKeyStore.create dir fs =
      .ok (⟨dir⟩, fs.setDirMode dir REQUIRED_DIR_MODE) := by
  have hnoop : createDirAll dir fs = .ok fs := by
    unfold createDirAll
    apply createDirsPrefixes_noop
    intro i hi
    simpa using hpre i hi
  have hset : setPermissions dir REQUIRED_DIR_MODE fs =
      .ok (fs.setDirMode dir REQUIRED_DIR_MODE) := by
    unfold setPermissions
    rw [hdir]
  have hlook : (fs.setDirMode dir REQUIRED_DIR_MODE).dirs.lookup dir
      = some REQUIRED_DIR_MODE := lookup_cons_self dir REQUIRED_DIR_MODE _
  have hc : canonicalize dir (fs.setDirMode dir REQUIRED_DIR_MODE) = .ok dir := by
    unfold canonicalize
    rw [if_pos (Or.inl (by simp [hlook]))]
  have hm : metadata dir (fs.setDirMode dir REQUIRED_DIR_MODE)
      = .ok (true, REQUIRED_DIR_MODE) := by
    unfold metadata
    rw [hlook]
  have hopen : FsKeyStore.openStore dir (fs.setDirMode dir REQUIRED_DIR_MODE)
      = .ok ⟨dir⟩ := by
    simp only [FsKeyStore.openStore, hc, hm]
    simp [REQUIRED_DIR_MODE]
    decide
  simp only [FsKeyStore.create, hnoop, hset, hopen]

instance (fs : FileSystem) (dir : Path) : Decidable (AllPrefixesDirs fs dir) := by
  unfold AllPrefixesDirs
  exact Nat.decidableBallLT _ _

end Lemmas

/-- C1: for every directory path whose permission bits (mode masked with
`0o777`) are anything other than owner-only `0o700`, `FsKeyStore::open`
on that path returns the `Permissions` error and constructs no store;
the check is part of `open` itself, so it runs on every open, not only
at creation. -/
theorem fs_open_rejects_bad_permissions (fs : FileSystem) (dir : Path)
    (m : Nat) (hdir : fs.dirs.lookup dir = some m)
    (hmode : Nat.land m 0o777 ≠ REQUIRED_DIR_MODE) :
    FsKeyStore.openStore dir fs = .error Error.Permissions :=
  openStore_perm_mismatch fs dir m hdir hmode

theorem fs_open_rejects_bad_permissions_witness :
    FsKeyStore.openStore ["keys"] ⟨[(["keys"], 0o777)], []⟩ =
      .error Error.Permissions :=
  fs_open_rejects_bad_permissions _ _ 0o777 rfl (by decide)

/-- C2 counterexample: `FsKeyStore::create` on a pre-existing directory
with loosened permissions (`0o755`) is not a hard error — it succeeds,
silently resetting the permission bits to `0o700`. -/
theorem fs_create_succeeds_on_loosened_dir :
    FsKeyStore.create ["keys"] ⟨[(["keys"], 0o755)], []⟩ =
      .ok (⟨["keys"]⟩, ⟨[(["keys"], 0o700)], []⟩) := rfl

/-- C2 amended: `open` on a directory whose permission bits differ from
the required owner-only mode is a hard error that never corrects the
bits, but `create` sets the directory's permission bits to the required
mode (also on a pre-existing directory), so `create` on a loosened
directory succeeds and resets the bits rather than failing. -/
theorem fs_permissions_amended (fs : FileSystem) (dir : Path) (m : Nat)
    (hdir : fs.dirs.lookup dir = some m)
    (hpre : AllPrefixesDirs fs dir) :
    (Nat.land m 0o777 ≠ REQUIRED_DIR_MODE →
      FsKeyStore.openStore dir fs = .error Error.Permissions) ∧
    ∃ fs', FsKeyStore.create dir fs = .ok (⟨dir⟩, fs') ∧
      fs'.dirs.lookup dir = some REQUIRED_DIR_MODE := by
  refine ⟨fun hmode => openStore_perm_mismatch fs dir m hdir hmode, ?_⟩
  exact ⟨_, create_resets_existing_dir fs dir m hdir hpre,
    lookup_cons_self dir REQUIRED_DIR_MODE _⟩

theorem fs_permissions_amended_witness :
    FsKeyStore.openStore ["store"] ⟨[(["store"], 0o755)], []⟩ =
      .error Error.Permissions ∧
    ∃ fs', FsKeyStore.create ["store"] ⟨[(["store"], 0o755)], []⟩ =
      .ok (⟨["store"]⟩, fs') ∧
      fs'.dirs.lookup ["store"] = some REQUIRED_DIR_MODE := by
  have h := fs_permissions_amended ⟨[(["store"], 0o755)], []⟩ ["store"] 0o755
    rfl (by decide)
  exact ⟨h.1 (by decide), h.2⟩

/-- C3 counterexample: for the label `"a.b"` the addressed file is not
`<root>/a.b.pem` — `set_extension("pem")` replaces the label's own
extension, so the file is `<root>/a.pem`. -/
theorem key_path_label_extension_counterexample :
    FsKeyStore.key_path ⟨["r"]⟩ "a.b" ≠ ["r", "a.b.pem"] ∧
    FsKeyStore.key_path ⟨["r"]⟩ "a.b" = ["r", "a.pem"] := by
  constructor
  · intro h
    have : (["r", "a.pem"] : Path) = ["r", "a.b.pem"] := by
      rw [← h]
      decide
    simp at this
  · decide

/-- C3 amended: `store`, `load` and `delete` all address the single file
obtained by joining the root with the label and setting its extension to
`pem`; for labels containing no dot this is `<root>/<label>.pem` as
claimed, but when the label itself contains an extension that extension
is replaced by `pem` rather than appended to. -/
theorem key_path_addressing_amended (st : FsKeyStore) (label : String)
    (doc : List Nat) (fs : FileSystem) :
    ('.' ∉ label.toList → st.key_path label = st.path ++ [label ++ ".pem"]) ∧
    (∀ fs2, st.store label doc fs = .ok fs2 →
      fs2.readFile (st.key_path label) = some (.pem doc) ∧
      st.load label fs2 = .ok doc) ∧
    (∀ fs3, st.delete label fs = .ok fs3 →
      fs3.readFile (st.key_path label) = none) := by
  refine ⟨?_, ?_, ?_⟩
  · intro h
    have h1 : fileStem label.toList = label.toList := by
      unfold fileStem
      rw [if_neg]
      intro hmem
      exact h (List.mem_of_mem_drop hmem)
    unfold FsKeyStore.key_path
    rw [h1]
    congr 1
  · intro fs2 h2
    unfold FsKeyStore.store at h2
    injection h2 with h2
    subst h2
    have hrd : (fs.writeFile (st.key_path label) (.pem doc)).readFile
        (st.key_path label) = some (.pem doc) :=
      lookup_cons_self (st.key_path label) (FileData.pem doc) _
    refine ⟨hrd, ?_⟩
    unfold FsKeyStore.load
    rw [hrd]
  · intro fs3 h3
    unfold FsKeyStore.delete at h3
    cases hx : fs.readFile (st.key_path label) with
    | none => rw [hx] at h3; cases h3
    | some v =>
      rw [hx] at h3
      injection h3 with h3
      subst h3
      exact lookup_filter_ne_none (st.key_path label) fs.files

theorem key_path_addressing_amended_witness :
    FsKeyStore.key_path ⟨["r"]⟩ "example_key" = ["r"] ++ ["example_key" ++ ".pem"] ∧
    ∃ fs3, FsKeyStore.delete ⟨["r"]⟩ "example_key"
        ⟨[], [(["r", "example_key.pem"], FileData.pem [7])]⟩ = .ok fs3 ∧
      fs3.readFile (FsKeyStore.key_path ⟨["r"]⟩ "example_key") = none := by
  have h := key_path_addressing_amended ⟨["r"]⟩ "example_key" [7]
    ⟨[], [(["r", "example_key.pem"], FileData.pem [7])]⟩
  exact ⟨h.1 (by decide), ⟨_, rfl, h.2.2 _ rfl⟩⟩

/-- C4: after a successful `create`, storing a document under a label and
loading that label returns a byte-identical document, and after deleting
the label a subsequent load fails with an error. -/
theorem store_load_delete_lifecycle (dir : Path) (fs : FileSystem)
    (st : FsKeyStore) (fs1 : FileSystem) (label : String) (doc : List Nat)
    (hcreate : FsKeyStore.create dir fs = .ok (st, fs1)) :
    ∃ fs2 fs3,
      st.store label doc fs1 = .ok fs2 ∧
      st.load label fs2 = .ok doc ∧
      st.delete label fs2 = .ok fs3 ∧
      ∃ e, st.load label fs3 = .error e := by
  refine ⟨fs1.writeFile (st.key_path label) (.pem doc),
    (fs1.writeFile (st.key_path label) (.pem doc)).removeFile (st.key_path label),
    rfl, ?_, ?_, ?_⟩
  · have hrd : (fs1.writeFile (st.key_path label) (.pem doc)).readFile
        (st.key_path label) = some (.pem doc) :=
      lookup_cons_self (st.key_path label) (FileData.pem doc) _
    unfold FsKeyStore.load
    rw [hrd]
  · have hrd : (fs1.writeFile (st.key_path label) (.pem doc)).readFile
        (st.key_path label) = some (.pem doc) :=
      lookup_cons_self (st.key_path label) (FileData.pem doc) _
    unfold FsKeyStore.delete
    rw [hrd]
  · refine ⟨Error.Pkcs8, ?_⟩
    have hrd : ((fs1.writeFile (st.key_path label) (.pem doc)).removeFile
        (st.key_path label)).readFile (st.key_path label) = none :=
      lookup_filter_ne_none (st.key_path label) _
    unfold FsKeyStore.load
    rw [hrd]

theorem store_load_delete_lifecycle_witness :
    ∃ fs2 fs3,
      FsKeyStore.store ⟨["keys"]⟩ "example_key" [1, 2, 3]
        ⟨[(["keys"], 0o700)], []⟩ = .ok fs2 ∧
      FsKeyStore.load ⟨["keys"]⟩ "example_key" fs2 = .ok [1, 2, 3] ∧
      FsKeyStore.delete ⟨["keys"]⟩ "example_key" fs2 = .ok fs3 ∧
      ∃ e, FsKeyStore.load ⟨["keys"]⟩ "example_key" fs3 = .error e :=
  store_load_delete_lifecycle ["keys"] ⟨[], []⟩ ⟨["keys"]⟩
    ⟨[(["keys"], 0o700)], []⟩ "example_key" [1, 2, 3] rfl

/-- C9: `delete` on a label whose file is absent propagates the
`NotFound` I/O error rather than silently succeeding; it succeeds
exactly when the file existed, and then the file is removed. -/
theorem fs_delete_missing_file_errors (st : FsKeyStore) (label : String)
    (fs : FileSystem) :
    (fs.readFile (st.key_path label) = none →
      st.delete label fs = .error (Error.Io IoErrorKind.notFound)) ∧
    (∀ d, fs.readFile (st.key_path label) = some d →
      st.delete label fs = .ok (fs.removeFile (st.key_path label)) ∧
      (fs.removeFile (st.key_path label)).readFile (st.key_path label)
        = none) := by
  constructor
  · intro h
    unfold FsKeyStore.delete
    rw [h]
  · intro d h
    unfold FsKeyStore.delete
    rw [h]
    exact ⟨rfl, lookup_filter_ne_none (st.key_path label) fs.files⟩

theorem fs_delete_missing_file_errors_witness :
    FsKeyStore.delete ⟨["r"]⟩ "k" ⟨[], []⟩
      = .error (Error.Io IoErrorKind.notFound) ∧
    (FsKeyStore.delete ⟨["r"]⟩ "k" ⟨[], [(["r", "k.pem"], FileData.pem [5])]⟩
      = .ok ((⟨[], [(["r", "k.pem"], FileData.pem [5])]⟩ : FileSystem).removeFile
          (FsKeyStore.key_path ⟨["r"]⟩ "k")) ∧
     ((⟨[], [(["r", "k.pem"], FileData.pem [5])]⟩ : FileSystem).removeFile
          (FsKeyStore.key_path ⟨["r"]⟩ "k")).readFile
        (FsKeyStore.key_path ⟨["r"]⟩ "k") = none) :=
  ⟨(fs_delete_missing_file_errors ⟨["r"]⟩ "k" ⟨[], []⟩).1 rfl,
   (fs_delete_missing_file_errors ⟨["r"]⟩ "k"
      ⟨[], [(["r", "k.pem"], FileData.pem [5])]⟩).2 (FileData.pem [5]) rfl⟩

/-- C5: byte input the primitive library rejects never yields a signer:
seed construction from wrong-length bytes fails with `KeyInvalid`,
`from_pkcs8` maps every library rejection to `KeyInvalid` (returning an
error, not a signer, so no default key is substituted), and `from_seed`
on a validated seed never reaches its panicking `unwrap` arm. -/
theorem ed25519_construction_rejects_invalid (b : List Nat)
    (ringDecode : List Nat → Except Unit Ed25519.Ed25519KeyPair) :
    (b.length ≠ 32 →
      Ed25519.Seed.from_bytes b = .error PError.keyInvalid) ∧
    (ringDecode b = .error () →
      Ed25519.Ed25519Signer.from_pkcs8 ringDecode b
        = .error PError.keyInvalid) ∧
    (∀ s : Ed25519.Seed, ∃ kp,
      Ed25519.Ed25519Signer.from_seed s = .value kp) := by
  refine ⟨?_, ?_, ?_⟩
  · intro h
    unfold Ed25519.Seed.from_bytes
    rw [dif_neg h]
  · intro h
    unfold Ed25519.Ed25519Signer.from_pkcs8
    rw [h]
  · intro s
    refine ⟨⟨⟨s.bytes⟩⟩, ?_⟩
    unfold Ed25519.Ed25519Signer.from_seed
      Ed25519.Ed25519KeyPair.from_seed_unchecked
    rw [if_pos s.len32]

theorem ed25519_construction_rejects_invalid_witness :
    Ed25519.Seed.from_bytes [] = .error PError.keyInvalid ∧
    Ed25519.Ed25519Signer.from_pkcs8 (fun _ => .error ()) []
      = .error PError.keyInvalid ∧
    ∃ kp, Ed25519.Ed25519Signer.from_seed ⟨List.replicate 32 0, by decide⟩
      = .value kp := by
  have h := ed25519_construction_rejects_invalid [] (fun _ => .error ())
  exact ⟨h.1 (by decide), h.2.1 rfl, h.2.2 ⟨List.replicate 32 0, by decide⟩⟩

/-- C6: constructing a YubiHSM signer against a key id whose stored
algorithm tag is not `EC_ED25519` fails with `InvalidKey` (the
constructor's single `public_key` probe rejects it), and the only wire
request ever issued for that signer is the `get_pubkey` probe — in
particular no sign request. -/
theorem yubihsm_wrong_algorithm_invalid_key (api : HsmApi) (kid : KeyId)
    (alg : Algorithm) (data : List Nat)
    (hpk : api.getPubkey kid = .ok (alg, data))
    (halg : alg ≠ Algorithm.EC_ED25519) :
    YubiHSMSigner.new ⟨api, false⟩ kid
      = (.err PError.invalidKey, [Request.getPubkey kid]) ∧
    ∀ m, Request.signDataEddsa kid m ∉ (YubiHSMSigner.new ⟨api, false⟩ kid).2 := by
  have hpub : YubiHSMSigner.public_key ⟨api, false⟩ ⟨kid⟩
      = (.err PError.invalidKey, [Request.getPubkey kid]) := by
    unfold YubiHSMSigner.public_key
    simp [hpk, halg]
  have hnew : YubiHSMSigner.new ⟨api, false⟩ kid
      = (.err PError.invalidKey, [Request.getPubkey kid]) := by
    simp [YubiHSMSigner.new, hpub]
  refine ⟨hnew, fun m hm => ?_⟩
  rw [hnew] at hm
  simp at hm

theorem yubihsm_wrong_algorithm_invalid_key_witness :
    YubiHSMSigner.new
      ⟨⟨.ok (), fun _ => .ok (Algorithm.EC_P256, []), fun _ _ => .ok []⟩,
        false⟩ 1
      = (.err PError.invalidKey, [Request.getPubkey 1]) :=
  (yubihsm_wrong_algorithm_invalid_key _ 1 Algorithm.EC_P256 [] rfl
    (by decide)).1

/-- C8: session establishment maps a collaborator failure to
`ProviderError` carrying the underlying cause, and `sign` maps any
transport/device-reported failure of its one remote request to
`ProviderError` carrying the cause. -/
theorem yubihsm_provider_error_mapping (api : HsmApi) (e1 e2 : HsmError)
    (kid : KeyId) (msg : List Nat)
    (hcre : api.createSession = .error e1)
    (hsig : api.signDataEddsa kid msg = .error e2) :
    YubiHSMSession.new api = .error (PError.providerError e1) ∧
    YubiHSMSigner.sign ⟨api, false⟩ ⟨kid⟩ msg
      = (.err (PError.providerError e2), [Request.signDataEddsa kid msg]) := by
  constructor
  · unfold YubiHSMSession.new
    rw [hcre]
  · unfold YubiHSMSigner.sign
    simp [hsig]

theorem yubihsm_provider_error_mapping_witness :
    YubiHSMSession.new
      ⟨.error HsmError.transport, fun _ => .ok (Algorithm.EC_ED25519, []),
        fun _ _ => .error HsmError.device⟩
      = .error (PError.providerError HsmError.transport) ∧
    YubiHSMSigner.sign
      ⟨⟨.error HsmError.transport, fun _ => .ok (Algorithm.EC_ED25519, []),
        fun _ _ => .error HsmError.device⟩, false⟩ ⟨1⟩ [2]
      = (.err (PError.providerError HsmError.device),
          [Request.signDataEddsa 1 [2]]) :=
  yubihsm_provider_error_mapping _ HsmError.transport HsmError.device 1 [2]
    rfl rfl

/-- C10: when the shared session mutex is poisoned, both `sign` and
`public_key` hit the `unwrap` on `lock()` and panic (`POut.panicked`, a
constructor distinct from every `POut.err` of the typed error taxonomy
and from every `POut.ok`), before issuing any wire request. -/
theorem yubihsm_poisoned_lock_panics (api : HsmApi) (kid : KeyId)
    (msg : List Nat) :
    YubiHSMSigner.sign ⟨api, true⟩ ⟨kid⟩ msg = (POut.panicked, []) ∧
    YubiHSMSigner.public_key ⟨api, true⟩ ⟨kid⟩ = (POut.panicked, []) :=
  ⟨rfl, rfl⟩

/-- C7: in every reachable state of the lock-step model of
`sign`/`public_key` bodies sharing one mutex-guarded session, the wire
trace is non-interleaved: it consists of completed request/response
blocks, possibly followed by a single pending request — request N+1 is
observed only after request N's response returned. -/
theorem yubihsm_session_exclusivity (s : SessState)
    (h : ReachableSess s) : NonInterleaved s.trace := by
  have hinv := reachable_sessInv h
  obtain ⟨hfree, hheld⟩ := hinv
  cases hown : s.lockOwner with
  | none => exact Or.inl (hfree hown).2
  | some t =>
    obtain ⟨_, hdisj⟩ := hheld t hown
    rcases hdisj with ⟨_, htr⟩ | ⟨_, l, hl, htr⟩ | ⟨_, htr⟩
    · exact Or.inl htr
    · exact Or.inr ⟨l, t, hl, htr⟩
    · exact Or.inl htr

theorem yubihsm_session_exclusivity_witness :
    NonInterleaved [WireEvent.req 0, WireEvent.resp 0] := by
  have h0 : ReachableSess SessState.init := ReachableSess.start
  have h1 := ReachableSess.step h0 (SignStep.acquire SessState.init 0 rfl rfl)
  have h2 := ReachableSess.step h1 (SignStep.request _ 0 rfl rfl)
  have h3 := ReachableSess.step h2 (SignStep.response _ 0 rfl rfl)
  exact yubihsm_session_exclusivity _ h3

end Signatory
